import Mathlib

/-!
Verification of the bus-fabric composition layer of the LiteX CycloneV port.

Shallow embedding of:
* `litex/soc/cores/cpu/hps/altera/cyclonev.py` — the `CycloneV` CPU wrapper
  (variant checking, AXI data-width table, HPS peripheral wiring,
  AXI/AXILite to Wishbone bridge construction, reset-address handling);
* `litex/soc/integration/soc_cyclonev.py` — the `SoCCycloneV` builder
  (constructor defaults, CLI argument choices, the same bridge constructors);
* `targets/bist.py` — the `GenSoC` builder (CSR map, CSR bank window
  assignment in `do_finalize`).

Pure address/width computations are translated directly from the Python
source.  The transaction-conversion logic of the protocol bridges and the
round-robin arbiter live in library code that is not part of the sources
embedded here; those parts are modelled from the specification and their
doc comments say so explicitly.
-/

namespace LitexCycloneV

/-! ## Address windows (cyclonev.py `add_hps_fpga_interfaces`, bist.py `do_finalize`) -/

/-- An address window `[base, base+size)` owned by one port. -/
structure AddressWindow where
  base  : Nat
  size  : Nat
  owner : String
deriving DecidableEq, Repr

/-- Half-open interval disjointness of two windows. -/
def windowsDisjoint (a b : AddressWindow) : Prop :=
  a.base + a.size ≤ b.base ∨ b.base + b.size ≤ a.base

instance (a b : AddressWindow) : Decidable (windowsDisjoint a b) := by
  unfold windowsDisjoint; infer_instance

/-- Slave regions registered by `CycloneV.add_hps_fpga_interfaces`
(cyclonev.py lines 249-253): `(slave, region_origin, region_size, region_mode)`
for the `f2h_axi` and `f2h_sdram_axi` Wishbone slaves. -/
def cycloneVSlaveRegions : List AddressWindow :=
  [ { base := 0x40000000, size := 0x20000000, owner := "f2h_axi"       },
    { base := 0x60000000, size := 0x20000000, owner := "f2h_sdram_axi" } ]

/-- CSR bank window origin used by `GenSoC.do_finalize` (bist.py line 94):
`0xe0000000 + 0x800*mapaddr`. -/
def csrFabricOrigin : Nat := 0xe0000000

/-- CSR bank window granularity used by `GenSoC.do_finalize` (bist.py line 94). -/
def csrGranularity : Nat := 0x800

/-- The CSR bank window produced for map address `mapaddr`
(bist.py line 94: `add_cpu_csr_region(name, 0xe0000000+0x800*mapaddr, ...)`,
one `csrGranularity`-sized window per bank). -/
def csrWindow (name : String) (mapaddr : Nat) : AddressWindow :=
  { base := csrFabricOrigin + csrGranularity * mapaddr, size := csrGranularity, owner := name }

/-- The `csr_map` of `BISTSoCDevel` after the `csr_map.update` chain
(bist.py: `GenSoC.csr_map`, `BISTSoC.csr_map`, `BISTSoCDevel.csr_map`). -/
def bistSoCDevelCsrMap : List (String × Nat) :=
  [("mila", 11), ("sata_bist", 10), ("uart2wb", 0), ("identifier", 2)]

/-- CSR bank windows of one `BISTSoCDevel` build. -/
def bistCsrWindows : List AddressWindow :=
  bistSoCDevelCsrMap.map (fun p => csrWindow p.1 p.2)

/-! ## CSR bank allocation (bist.py `GenSoC`) -/

/-- The `csr_map` of the base `GenSoC` class (bist.py lines 58-61). -/
def genSoCCsrMap : List (String × Nat) := [("uart2wb", 0), ("identifier", 2)]

/-- The CSR-carrying objects of `GenSoC` in the order `GenSoC.__init__`
creates them: `self.uart2wb` first, then `self.identifier`. -/
def genSoCCsrObjects : List String := ["uart2wb", "identifier"]

/-- Map address assigned to a bank name by a `csr_map`
(bist.py line 90: `lambda name, memory: self.csr_map[name ...]`). -/
def csrMapLookup (m : List (String × Nat)) (name : String) : Option Nat :=
  (m.find? (fun p => p.1 == name)).map (fun p => p.2)

/-- Bank list built by the CSR bank array: each declared object paired with
the map address its name gets from the `csr_map` callback. -/
def bankArrayBanks (objs : List String) (m : List (String × Nat)) : List (String × Nat) :=
  objs.filterMap (fun n => (csrMapLookup m n).map (fun a => (n, a)))

/-- One record of `cpu_csr_regions`: `(name, origin, busword)`
(bist.py `add_cpu_csr_region`; the csr list argument is omitted). -/
structure CsrRegion where
  name    : String
  origin  : Nat
  busword : Nat
deriving DecidableEq, Repr

/-- The regions `GenSoC.do_finalize` publishes (bist.py lines 93-94):
for every bank `(name, mapaddr)` it calls
`add_cpu_csr_region(name, 0xe0000000 + 0x800*mapaddr, 32, csrs)`. -/
def doFinalizeCsrRegions (objs : List String) (m : List (String × Nat)) : List CsrRegion :=
  (bankArrayBanks objs m).map
    (fun p => { name := p.1, origin := csrFabricOrigin + csrGranularity * p.2, busword := 32 })

/-- Zero-based position of a bank in declaration order. -/
def declarationIndex (objs : List String) (name : String) : Option Nat :=
  objs.indexOf? name

/-! ## C1 -/

/-- C1: for every pair of address windows registered in one fabric build with
different owner ports, the half-open intervals `[base, base+size)` are
disjoint: the two slave regions of the `CycloneV` build are disjoint, the CSR
bank windows of the `BISTSoCDevel` build are disjoint, and in general any two
CSR bank windows with distinct map addresses are disjoint. -/
theorem c1_address_windows_disjoint :
    (∀ a ∈ cycloneVSlaveRegions, ∀ b ∈ cycloneVSlaveRegions,
        a.owner ≠ b.owner → windowsDisjoint a b)
  ∧ (∀ a ∈ bistCsrWindows, ∀ b ∈ bistCsrWindows,
        a.owner ≠ b.owner → windowsDisjoint a b)
  ∧ (∀ (n₁ n₂ : String) (i j : Nat), i ≠ j →
        windowsDisjoint (csrWindow n₁ i) (csrWindow n₂ j)) := by
  refine ⟨by decide, by decide, ?_⟩
  intro n₁ n₂ i j hij
  simp only [windowsDisjoint, csrWindow, csrGranularity, csrFabricOrigin]
  omega

/-- Concrete instance of C1: the windows at map addresses 0 and 1 are disjoint. -/
theorem c1_address_windows_disjoint_witness :
    windowsDisjoint (csrWindow "uart" 0) (csrWindow "timer" 1) :=
  c1_address_windows_disjoint.2.2 "uart" "timer" 0 1 (by decide)

/-! ## C2 -/

/-- C2 counterexample: the bank `identifier` is the second declared bank of
`GenSoC` (declaration index 1), yet its window base is
`0xe0000000 + 0x800*2 = 0xe0001000`, not
`fabric_origin + granularity × declaration_index = 0xe0000800`: the map
address comes from the explicit `csr_map` (which skips index 1), not from
declaration order. -/
theorem c2_declaration_index_counterexample :
    doFinalizeCsrRegions genSoCCsrObjects genSoCCsrMap =
      [ { name := "uart2wb",    origin := 0xe0000000, busword := 32 },
        { name := "identifier", origin := 0xe0001000, busword := 32 } ]
  ∧ declarationIndex genSoCCsrObjects "identifier" = some 1
  ∧ (0xe0001000 : Nat) ≠ csrFabricOrigin + csrGranularity * 1 := by
  refine ⟨by decide, by decide, by decide⟩

/-- C2 (amended): register banks are allocated fixed-size windows with window
base = fabric_origin + granularity × map_index, where map_index is the index
the bank's name is assigned in the `csr_map` (not its declaration position;
indices may skip values): every bank `(name, i)` collected by the bank array
yields the region `(name, 0xe0000000 + 0x800*i, 32)`, and its window is
`[0xe0000000 + 0x800*i, 0xe0000000 + 0x800*(i+1))`. -/
theorem c2_bank_window_by_map_index (objs : List String) (m : List (String × Nat))
    (name : String) (i : Nat) (h : (name, i) ∈ bankArrayBanks objs m) :
    ({ name := name, origin := csrFabricOrigin + csrGranularity * i, busword := 32 } : CsrRegion)
        ∈ doFinalizeCsrRegions objs m
  ∧ (csrWindow name i).base = csrFabricOrigin + csrGranularity * i
  ∧ (csrWindow name i).base + (csrWindow name i).size
        = csrFabricOrigin + csrGranularity * (i + 1) := by
  refine ⟨?_, rfl, ?_⟩
  · exact List.mem_map.mpr ⟨(name, i), h, rfl⟩
  · simp only [csrWindow]
    ring

/-- Concrete instance of the amended C2 at the `GenSoC` build: bank
`identifier` with map index 2 owns the region based at `0xe0001000`. -/
theorem c2_bank_window_by_map_index_witness :
    ({ name := "identifier", origin := 0xe0001000, busword := 32 } : CsrRegion)
        ∈ doFinalizeCsrRegions genSoCCsrObjects genSoCCsrMap
  ∧ (csrWindow "identifier" 2).base = csrFabricOrigin + csrGranularity * 2
  ∧ (csrWindow "identifier" 2).base + (csrWindow "identifier" 2).size
        = csrFabricOrigin + csrGranularity * (2 + 1) := by
  have h := c2_bank_window_by_map_index genSoCCsrObjects genSoCCsrMap "identifier" 2 (by decide)
  simpa using h

/-! ## Bridge address-width computation (cyclonev.py / soc_cyclonev.py) -/

/-- Halving iteration behind `bitLen`; the first argument is fuel, consumed
once per binary digit (the value itself is always enough fuel). -/
def bitLenFuel : Nat → Nat → Nat
  | _, 0 => 0
  | 0, _ + 1 => 0
  | fuel + 1, n + 1 => bitLenFuel fuel ((n + 1) / 2) + 1

/-- Number of binary digits of a natural number, as Python's
`int.bit_length()` used by migen's `log2_int`. -/
def bitLen (n : Nat) : Nat := bitLenFuel n n

/-- migen's `log2_int(n)` (with the default `need_pow2=True`): returns 0 for
`n = 0`, else `r = (n-1).bit_length()` provided `2^r = n`, raising `ValueError`
(modelled as `none`) when `n` is not a power of two. -/
def log2_int (n : Nat) : Option Nat :=
  if n = 0 then some 0
  else
    let r := bitLen (n - 1)
    if 2 ^ r = n then some r else none

/-- A Wishbone bus interface, reduced to the widths the claims are about
(`wishbone.Interface(data_width=..., adr_width=...)`). -/
structure WishboneIf where
  data_width : Nat
  adr_width  : Nat
deriving DecidableEq, Repr

/-- Wishbone side of `add_axi_to_wishbone` (cyclonev.py lines 516-518 and
soc_cyclonev.py lines 438-440):
`wishbone_adr_shift = log2_int(axi.data_width//8)` and
`wb = wishbone.Interface(data_width=axi.data_width, adr_width=axi.address_width-wishbone_adr_shift)`. -/
def add_axi_to_wishbone_wb (data_width address_width : Nat) : Option WishboneIf :=
  (log2_int (data_width / 8)).map
    (fun shift => { data_width := data_width, adr_width := address_width - shift })

/-- Wishbone side of `add_axi_lw_to_wishbone` (cyclonev.py lines 531-533 and
soc_cyclonev.py lines 445-447); the computation is the same as for the full
AXI bridge. -/
def add_axi_lw_to_wishbone_wb (data_width address_width : Nat) : Option WishboneIf :=
  (log2_int (data_width / 8)).map
    (fun shift => { data_width := data_width, adr_width := address_width - shift })

theorem bitLenFuel_two_pow_sub_one (k : Nat) :
    ∀ fuel, 2 ^ k - 1 ≤ fuel → bitLenFuel fuel (2 ^ k - 1) = k := by
  induction k with
  | zero => intro fuel _; cases fuel <;> simp [bitLenFuel]
  | succ k ih =>
    intro fuel hf
    have hpos : 1 ≤ 2 ^ k := Nat.one_le_two_pow
    have hval : 2 ^ (k + 1) - 1 = 2 * (2 ^ k - 1) + 1 := by
      have : 2 ^ (k + 1) = 2 * 2 ^ k := by ring
      omega
    obtain ⟨f, rfl⟩ : ∃ f, fuel = f + 1 := ⟨fuel - 1, by omega⟩
    obtain ⟨m, hm⟩ : ∃ m, 2 ^ (k + 1) - 1 = m + 1 := ⟨2 * (2 ^ k - 1), by omega⟩
    rw [hm, bitLenFuel]
    have hdiv : (m + 1) / 2 = 2 ^ k - 1 := by omega
    rw [hdiv, ih f (by omega)]

theorem bitLen_two_pow_sub_one (k : Nat) : bitLen (2 ^ k - 1) = k :=
  bitLenFuel_two_pow_sub_one k (2 ^ k - 1) (Nat.le_refl _)

theorem log2_int_two_pow (k : Nat) : log2_int (2 ^ k) = some k := by
  have hpos : 1 ≤ 2 ^ k := Nat.one_le_two_pow
  simp only [log2_int, bitLen_two_pow_sub_one]
  have hne : ¬ 2 ^ k = 0 := by omega
  simp [hne]

/-! ## C4 -/

/-- C4: bridging a byte-addressed wide bus of data width `2^(k+3)` (any power
of two ≥ 8) to the word-addressed Wishbone bus narrows the address space by
exactly `address_shift = log2(data_width/8) = k` bits, in both the AXI and the
AXI-lite bridge constructors; the Wishbone data width is unchanged. -/
theorem c4_address_shift (k address_width : Nat) :
    log2_int (2 ^ (k + 3) / 8) = some k
  ∧ add_axi_to_wishbone_wb (2 ^ (k + 3)) address_width =
      some { data_width := 2 ^ (k + 3), adr_width := address_width - k }
  ∧ add_axi_lw_to_wishbone_wb (2 ^ (k + 3)) address_width =
      some { data_width := 2 ^ (k + 3), adr_width := address_width - k } := by
  have hdiv : 2 ^ (k + 3) / 8 = 2 ^ k := by
    have : 2 ^ (k + 3) = 2 ^ k * 8 := by ring
    rw [this, Nat.mul_div_cancel]
    omega
  have hlog : log2_int (2 ^ (k + 3) / 8) = some k := by rw [hdiv, log2_int_two_pow]
  refine ⟨hlog, ?_, ?_⟩ <;>
    simp [add_axi_to_wishbone_wb, add_axi_lw_to_wishbone_wb, hlog]

/-! ## Variants and data widths (cyclonev.py, soc_cyclonev.py) -/

/-- `AXI_DATA_WIDTHS` (cyclonev.py lines 46-60): `variant : (h2f, f2h)`. -/
def AXI_DATA_WIDTHS : List (String × Nat × Nat) :=
  [ ("standard", (64,  64)),
    ("linux",    (64,  64)),
    ("full",     (64,  64)),
    ("linuxhh",  (32,  32)),
    ("linuxhs",  (32,  64)),
    ("linuxhd",  (32, 128)),
    ("linuxsh",  (64,  32)),
    ("linuxss",  (64,  64)),
    ("linuxsd",  (64, 128)),
    ("linuxdh",  (128,  32)),
    ("linuxds",  (128,  64)),
    ("linuxdd",  (128, 128)) ]

/-- Keys of `CPU_VARIANTS` (cyclonev.py lines 42-44): only `standard`. -/
def cpuVariantKeys : List String := ["standard"]

/-- Data widths the spec allows for bridge ports. -/
def allowedWidths : List Nat := [32, 64, 128]

/-- Default of the `h2f_width` keyword of `SoCCycloneV.__init__`
(soc_cyclonev.py line 22: `h2f_width=62`). -/
def socCycloneV_default_h2f_width : Nat := 62

/-- Default of the `f2h_width` keyword of `SoCCycloneV.__init__`
(soc_cyclonev.py line 22: `f2h_width=64`). -/
def socCycloneV_default_f2h_width : Nat := 64

/-- `choices` of the `--h2f-width` and `--f2h-width` CLI arguments
(soc_cyclonev.py lines 471 and 474). -/
def cliWidthChoices : List Nat := [32, 64, 128]

/-- `default` of the `--h2f-width` CLI argument (soc_cyclonev.py line 471). -/
def cli_default_h2f_width : Nat := 64

/-- `default` of the `--f2h-width` CLI argument (soc_cyclonev.py line 474). -/
def cli_default_f2h_width : Nat := 64

/-- State built by a successful `CycloneV.__init__` for the claims' purposes:
the variant and the bridge widths taken from `AXI_DATA_WIDTHS`. -/
structure CycloneVCpu where
  variant   : String
  h2f_width : Nat
  f2h_width : Nat
deriving DecidableEq, Repr

/-- Width pair of a variant in `AXI_DATA_WIDTHS`. -/
def axiDataWidths (variant : String) : Option (Nat × Nat) :=
  (AXI_DATA_WIDTHS.find? (fun p => p.1 == variant)).map (fun p => p.2)

/-- `CycloneV.__init__` (cyclonev.py lines 91-96): first
`assert variant in CPU_VARIANTS` (modelled as an error, raised before any
port or parameter is created), then the widths are looked up in
`AXI_DATA_WIDTHS` and the instance is built. -/
def cycloneVInit (variant : String) : Except String CycloneVCpu :=
  if cpuVariantKeys.contains variant then
    match axiDataWidths variant with
    | some wh => .ok { variant := variant, h2f_width := wh.1, f2h_width := wh.2 }
    | none    => .error "KeyError"
  else
    .error ("Unsupported variant " ++ variant)

/-! ## C7 -/

/-- C7 is contradicted by the code at one point: the `SoCCycloneV.__init__`
keyword default is `h2f_width=62`, which is not in `{32, 64, 128}`, while the
builder's own CLI layer declares `choices=[32,64,128]` with `default=64` for
the same knob (and every other width — the whole `AXI_DATA_WIDTHS` table, the
`f2h_width` default, and both CLI defaults — is in `{32, 64, 128}`).  The `62`
is a slip for `64`. -/
theorem c7_default_h2f_width_is_62 :
    socCycloneV_default_h2f_width = 62
  ∧ allowedWidths.contains socCycloneV_default_h2f_width = false
  ∧ cli_default_h2f_width = 64
  ∧ allowedWidths.contains socCycloneV_default_f2h_width = true
  ∧ (cliWidthChoices.all (fun w => allowedWidths.contains w)
      && allowedWidths.contains cli_default_h2f_width
      && allowedWidths.contains cli_default_f2h_width) = true
  ∧ (AXI_DATA_WIDTHS.all
      (fun p => allowedWidths.contains p.2.1 && allowedWidths.contains p.2.2)) = true := by
  decide

/-! ## C8 -/

/-- C8: `CycloneV(platform, variant)` constructs successfully exactly when
`variant = "standard"`; every other variant string — in particular every
`linux*` variant listed in `AXI_DATA_WIDTHS` — fails the
`assert variant in CPU_VARIANTS` before any port is created. -/
theorem c8_only_standard_variant_constructs :
    (∀ variant : String, (cycloneVInit variant).isOk = true ↔ variant = "standard")
  ∧ cycloneVInit "standard" =
      .ok { variant := "standard", h2f_width := 64, f2h_width := 64 }
  ∧ ((AXI_DATA_WIDTHS.filter (fun p => !(p.1 == "standard"))).all
      (fun p => !(cycloneVInit p.1).isOk)) = true := by
  refine ⟨?_, by rfl, by decide⟩
  intro variant
  by_cases hv : variant = "standard"
  · subst hv; decide
  · have hbeq : (variant == "standard") = false := by
      simp [hv]
    simp [cycloneVInit, cpuVariantKeys, List.contains, hbeq, hv, Except.isOk, Except.toBool]

/-! ## HPS peripheral wiring (cyclonev.py `add_hps_peripherials`) -/

/-- Pad resources requested unconditionally by `add_hps_peripherials`
(cyclonev.py lines 156-161), in request order; a missing one raises an
uncaught `ConstraintError` and aborts construction. -/
def mandatoryPads : List (String × Option Nat) :=
  [ ("hps_usb",  none),
    ("hps_sd",   none),
    ("hps_spim", none),
    ("hps_uart", none),
    ("hps_i2c",  some 0),
    ("hps_i2c",  some 1) ]

/-- Parameter keys added for the `hps_enet` pads (cyclonev.py lines 168-183). -/
def enetParamKeys : List String :=
  [ "hps_io_emac1_inst_TX_CLK",
    "hps_io_emac1_inst_TXD0", "hps_io_emac1_inst_TXD1",
    "hps_io_emac1_inst_TXD2", "hps_io_emac1_inst_TXD3",
    "hps_io_emac1_inst_MDIO", "hps_io_emac1_inst_MDC",
    "hps_io_emac1_inst_RX_CTL", "hps_io_emac1_inst_TX_CTL",
    "hps_io_emac1_inst_RX_CLK",
    "hps_io_emac1_inst_RXD0", "hps_io_emac1_inst_RXD1",
    "hps_io_emac1_inst_RXD2", "hps_io_emac1_inst_RXD3" ]

/-- Parameter keys added for the `hps_flash` pads (cyclonev.py lines 190-197). -/
def qspiParamKeys : List String :=
  [ "hps_io_qspi_inst_IO0", "hps_io_qspi_inst_IO1",
    "hps_io_qspi_inst_IO2", "hps_io_qspi_inst_IO3",
    "hps_io_qspi_inst_SS0", "hps_io_qspi_inst_CLK" ]

/-- Parameter keys added unconditionally at the end of `add_hps_peripherials`
(cyclonev.py lines 200-240): SD card, USB, SPI, UART and the two I2C buses. -/
def commonParamKeys : List String :=
  [ "hps_io_sdio_inst_CLK", "hps_io_sdio_inst_CMD",
    "hps_io_sdio_inst_D0", "hps_io_sdio_inst_D1",
    "hps_io_sdio_inst_D2", "hps_io_sdio_inst_D3",
    "hps_io_usb1_inst_D0", "hps_io_usb1_inst_D1",
    "hps_io_usb1_inst_D2", "hps_io_usb1_inst_D3",
    "hps_io_usb1_inst_D4", "hps_io_usb1_inst_D5",
    "hps_io_usb1_inst_D6", "hps_io_usb1_inst_D7",
    "hps_io_usb1_inst_STP", "hps_io_usb1_inst_CLK",
    "hps_io_usb1_inst_DIR", "hps_io_usb1_inst_NXT",
    "hps_io_spim1_inst_CLK", "hps_io_spim1_inst_MOSI",
    "hps_io_spim1_inst_MISO", "hps_io_spim1_inst_SS0",
    "hps_io_uart0_inst_RX", "hps_io_uart0_inst_TX",
    "hps_io_i2c0_inst_SDA", "hps_io_i2c0_inst_SCL",
    "hps_io_i2c1_inst_SDA", "hps_io_i2c1_inst_SCL" ]

/-- `CycloneV.add_hps_peripherials` (cyclonev.py lines 146-240).  `avail`
tells whether `platform.request(name, number)` succeeds.  The six mandatory
pad sets are requested first; a missing one raises an uncaught
`ConstraintError` (modelled as `.error`) and aborts construction.  The
`hps_enet` and `hps_flash` requests sit inside `try/except ConstraintError`
blocks — but the module never imports `ConstraintError` (its imports,
cyclonev.py lines 32-39, bring in only `os`, the migen names, `CPU`,
`wishbone` and the AXI classes, and `ConstraintError` is not a Python
builtin).  Python resolves the name in an `except` clause only when an
exception actually propagates, so when one of these requests fails,
evaluating `except ConstraintError:` (lines 184, 198) raises an uncaught
`NameError` and construction aborts anyway: the catch-and-continue path is
unreachable.  On success the enet/flash parameters are appended, then the
common parameter block.  `params` is the list of parameter keys in
`self.hps_params` before the call. -/
def add_hps_peripherials (avail : String → Option Nat → Bool) (params : List String) :
    Except String (List String) :=
  if !(avail "hps_usb" none) then .error "ConstraintError: hps_usb" else
  if !(avail "hps_sd" none) then .error "ConstraintError: hps_sd" else
  if !(avail "hps_spim" none) then .error "ConstraintError: hps_spim" else
  if !(avail "hps_uart" none) then .error "ConstraintError: hps_uart" else
  if !(avail "hps_i2c" (some 0)) then .error "ConstraintError: hps_i2c:0" else
  if !(avail "hps_i2c" (some 1)) then .error "ConstraintError: hps_i2c:1" else
  if !(avail "hps_enet" none) then .error "NameError: ConstraintError" else
  if !(avail "hps_flash" none) then .error "NameError: ConstraintError" else
  .ok (params ++ enetParamKeys ++ qspiParamKeys ++ commonParamKeys)

/-! ## C9 -/

/-- C9 is contradicted by the code, whose visible intent the claim states:
the `try/except ConstraintError` blocks are meant to catch a missing
`hps_enet` or `hps_flash` and continue without it, but the module never
imports `ConstraintError`, so the except clause itself raises an uncaught
`NameError` and construction aborts — exactly as for the six unconditionally
requested pad sets.  Evaluated at the failing inputs: a build missing only
`hps_enet`, or only `hps_flash`, aborts with the `NameError`; a build with
every pad available succeeds with all parameters added after the existing
ones; a build missing `hps_usb` aborts with the uncaught `ConstraintError`. -/
theorem c9_except_clause_raises_name_error :
    add_hps_peripherials (fun n _ => !(n == "hps_enet")) ["mem_a"]
      = .error "NameError: ConstraintError"
  ∧ add_hps_peripherials (fun n _ => !(n == "hps_flash")) ["mem_a"]
      = .error "NameError: ConstraintError"
  ∧ add_hps_peripherials (fun _ _ => true) ["mem_a"]
      = .ok (["mem_a"] ++ enetParamKeys ++ qspiParamKeys ++ commonParamKeys)
  ∧ add_hps_peripherials (fun n _ => !(n == "hps_usb")) ["mem_a"]
      = .error "ConstraintError: hps_usb" :=
  ⟨rfl, rfl, rfl, rfl⟩

/-! ## Reset address handling (cyclonev.py `set_reset_address`, `do_finalize`) -/

/-- `CycloneV.set_reset_address` (cyclonev.py lines 544-547).  The state is
the `reset_address` attribute (`none` = not set).  The method first runs
`assert not hasattr(self, "reset_address")` — a second call therefore fails
with the attribute untouched — then ASSIGNS `self.reset_address =
reset_address`, and only afterwards runs
`assert reset_address == 0x10000000`: a first call with a wrong value fails
its assertion after having already recorded the value.  Returns the new
attribute state and whether the call completed without an assertion error. -/
def set_reset_address (reset_address_attr : Option Nat) (reset_address : Nat) :
    Option Nat × Bool :=
  match reset_address_attr with
  | some a => (some a, false)
  | none   => (some reset_address, reset_address == 0x10000000)

/-- The `assert hasattr(self, "reset_address")` guard of
`CycloneV.do_finalize` (cyclonev.py line 566): `true` iff the assertion
passes. -/
def do_finalize_guard (reset_address_attr : Option Nat) : Bool :=
  reset_address_attr.isSome

/-! ## C10 -/

/-- C10 counterexample: a first call with the wrong value `0x20000000` fails
its assertion, yet it does NOT leave the instance unchanged — the wrong
address is recorded before the assertion runs, and `do_finalize`'s guard
subsequently passes even though no successful `set_reset_address` happened. -/
theorem c10_failed_call_mutates_counterexample :
    (set_reset_address none 0x20000000).2 = false
  ∧ (set_reset_address none 0x20000000).1 = some 0x20000000
  ∧ (set_reset_address none 0x20000000).1 ≠ none
  ∧ do_finalize_guard (set_reset_address none 0x20000000).1 = true := by
  decide

/-- C10 (amended): `set_reset_address` succeeds at most once and only for the
value `0x10000000`; a second call fails an assertion with the recorded
address unchanged; a first call with any other value records that value and
then fails its assertion (so a failed first call does change the instance);
and `do_finalize`'s assertion passes exactly when some prior
`set_reset_address` call (successful or a value-failed first call) recorded
an address. -/
theorem c10_reset_address_protocol (s : Option Nat) (addr : Nat) :
    (∀ a, s = some a → set_reset_address s addr = (some a, false))
  ∧ (s = none → addr = 0x10000000 → set_reset_address s addr = (some addr, true))
  ∧ (s = none → addr ≠ 0x10000000 → set_reset_address s addr = (some addr, false))
  ∧ (do_finalize_guard s = true ↔ s ≠ none) := by
  refine ⟨?_, ?_, ?_, ?_⟩
  · intro a ha; subst ha; rfl
  · intro hs ha; subst hs; subst ha; rfl
  · intro hs ha; subst hs
    simp [set_reset_address, ha]
  · cases s <;> simp [do_finalize_guard]

/-- Concrete instance of the amended C10: the correct first call succeeds, a
second call fails without changing the recorded address, and the finalize
guard rejects the unset state. -/
theorem c10_reset_address_protocol_witness :
    set_reset_address none 0x10000000 = (some 0x10000000, true)
  ∧ set_reset_address (some 0x10000000) 0x10000000 = (some 0x10000000, false)
  ∧ (do_finalize_guard none = true ↔ (none : Option Nat) ≠ none) := by
  refine ⟨?_, ?_, ?_⟩
  · exact (c10_reset_address_protocol none 0x10000000).2.1 rfl rfl
  · exact (c10_reset_address_protocol (some 0x10000000) 0x10000000).1 0x10000000 rfl
  · exact (c10_reset_address_protocol none 0x10000000).2.2.2

/-! ## Protocol bridge write path (modelled from the spec) -/

/-- One simple-bus (Wishbone-style) write: a word address and one data word. -/
structure SimpleWrite where
  addr : Nat
  data : Nat
deriving DecidableEq, Repr

/-- Modelled from the spec: the build-time configuration check of a
width-adapting Protocol Bridge (`litex.soc.interconnect.axi.AXI2Wishbone` and
the width converters are not among the embedded sources).  Per the spec the
bridge fails to construct unless both widths are powers of two, the simple
side is at least one byte wide and the wide width is an integer multiple of
the simple width. -/
def bridgeConfigOk (source_width target_width : Nat) : Bool :=
  (log2_int source_width).isSome && (log2_int target_width).isSome
    && decide (8 ≤ target_width) && decide (target_width ≤ source_width)
    && (source_width % target_width == 0)

/-- Little-endian `target_width`-bit chunks of one `source_width`-bit beat,
lowest chunk first. -/
def beatChunks (source_width target_width : Nat) (data : Nat) : List Nat :=
  (List.range (source_width / target_width)).map
    (fun k => data / 2 ^ (target_width * k) % 2 ^ target_width)

/-- Simple-bus writes for a list of data words at consecutive word addresses. -/
def writesFrom (wordAddr : Nat) : List Nat → List SimpleWrite
  | [] => []
  | c :: cs => { addr := wordAddr, data := c } :: writesFrom (wordAddr + 1) cs

/-- Modelled from the spec: the write path of the Protocol Bridge.  A wide
write at byte address `addr` carrying `beats` becomes one simple-bus write
per `target_width`-bit chunk, in beat order with the low chunk of each beat
first, at consecutive word addresses starting at the byte address shifted
right by `address_shift = log2(target_width/8)` (the shift the embedded
bridge constructors apply, cyclonev.py line 517). -/
def bridgeWriteOps (source_width target_width addr : Nat) (beats : List Nat) :
    List SimpleWrite :=
  let shift := (log2_int (target_width / 8)).getD 0
  writesFrom (addr / 2 ^ shift) ((beats.map (beatChunks source_width target_width)).flatten)

/-- Modelled from the spec: a wide-side write through a bridge; `none` when
the configuration is rejected at build time. -/
def bridgeWrite (source_width target_width addr : Nat) (beats : List Nat) :
    Option (List SimpleWrite) :=
  if bridgeConfigOk source_width target_width then
    some (bridgeWriteOps source_width target_width addr beats)
  else none

/-! ## C3 -/

/-- C3 counterexample: with `source_width=64`, `target_width=32`, a wide-side
write to byte address `0x100` with two data beats yields FOUR simple-bus
writes (two 32-bit chunks per 64-bit beat) at word addresses
`0x40, 0x41, 0x42, 0x43` (`0x100` shifted right by
`address_shift = log2(32/8) = 2`) — not two writes at `0x200` and `0x204` as
the claim states. -/
theorem c3_two_beat_write_counterexample :
    bridgeWrite 64 32 0x100 [0x1111111122222222, 0x3333333344444444] =
      some [ { addr := 0x40, data := 0x22222222 },
             { addr := 0x41, data := 0x11111111 },
             { addr := 0x42, data := 0x44444444 },
             { addr := 0x43, data := 0x33333333 } ]
  ∧ ((bridgeWrite 64 32 0x100 [0x1111111122222222, 0x3333333344444444]).map
        (fun l => l.map SimpleWrite.addr)) ≠ some [0x200, 0x204]
  ∧ ((bridgeWrite 64 32 0x100 [0x1111111122222222, 0x3333333344444444]).map
        (fun l => l.length)) ≠ some 2 := by
  decide

/-- C3 (amended): for a bridge configured with `source_width=64` and
`target_width=32`, a wide-side write to byte address `0x100` carrying two
data beats `[D0, D1]` produces exactly four simple-bus writes, at consecutive
word addresses `0x40, 0x41, 0x42, 0x43` (`0x100 >> address_shift`,
`address_shift = log2(32/8) = 2`), carrying the low then high 32-bit half of
`D0` followed by the low then high 32-bit half of `D1`, in that order. -/
theorem c3_two_beat_write (d0 d1 : Nat) :
    bridgeWrite 64 32 0x100 [d0, d1] =
      some [ { addr := 0x40, data := d0 % 2 ^ 32 },
             { addr := 0x41, data := d0 / 2 ^ 32 % 2 ^ 32 },
             { addr := 0x42, data := d1 % 2 ^ 32 },
             { addr := 0x43, data := d1 / 2 ^ 32 % 2 ^ 32 } ] := by
  have hok : bridgeConfigOk 64 32 = true := by decide
  have hrange : List.range 2 = [0, 1] := by decide
  have hshift : (log2_int (32 / 8)).getD 0 = 2 := by decide
  simp only [bridgeWrite, hok, if_true, bridgeWriteOps, beatChunks, hrange, hshift,
    List.map_cons, List.map_nil, List.flatten_cons, List.flatten_nil,
    List.append_nil, List.cons_append, List.nil_append, writesFrom]
  norm_num

/-! ## C6 -/

/-- One wide-side write transaction: identifier, byte address and data beats. -/
structure WideWriteTxn where
  id    : Nat
  addr  : Nat
  beats : List Nat
deriving DecidableEq, Repr

/-- Modelled from the spec: a bridge instance serves wide-side transactions
strictly one at a time in issue order (§4.1/§5: one outstanding simple-bus
transaction, responses synthesized after the downstream acknowledge), pairing
each transaction's simple-bus writes with a write response that carries the
transaction's identifier unchanged. -/
def bridgeRunWrites (source_width target_width : Nat) (txns : List WideWriteTxn) :
    Option (List (List SimpleWrite × Nat)) :=
  if bridgeConfigOk source_width target_width then
    some (txns.map (fun t => (bridgeWriteOps source_width target_width t.addr t.beats, t.id)))
  else none

/-- C6: within one bridge instance, transactions complete in issue order and
every identifier is opaque passthrough: the k-th response belongs to the k-th
issued transaction and carries its id unchanged, and relabelling every id by
an arbitrary function changes nothing about the simple-bus operation streams
— ids never feed reordering logic. -/
theorem c6_ids_opaque_passthrough (source_width target_width : Nat)
    (txns : List WideWriteTxn) (f : Nat → Nat)
    (h : bridgeConfigOk source_width target_width = true) :
    (bridgeRunWrites source_width target_width txns).map (fun rs => rs.map Prod.snd)
        = some (txns.map WideWriteTxn.id)
  ∧ (bridgeRunWrites source_width target_width txns).map (fun rs => rs.map Prod.fst)
        = some (txns.map (fun t => bridgeWriteOps source_width target_width t.addr t.beats))
  ∧ (bridgeRunWrites source_width target_width
        (txns.map (fun t => { t with id := f t.id }))).map (fun rs => rs.map Prod.fst)
        = (bridgeRunWrites source_width target_width txns).map (fun rs => rs.map Prod.fst) := by
  simp [bridgeRunWrites, h, List.map_map, Function.comp]

/-- Two wide-side write transactions used to exercise C6 concretely. -/
def c6SampleTxns : List WideWriteTxn :=
  [ { id := 7, addr := 0x100, beats := [1, 2] },
    { id := 3, addr := 0x200, beats := [4] } ]

/-- Concrete instance of C6: one 64→32 bridge run with two transactions whose
ids are then relabelled. -/
theorem c6_ids_opaque_passthrough_witness :
    (bridgeRunWrites 64 32 c6SampleTxns).map (fun rs => rs.map Prod.snd) = some [7, 3]
  ∧ (bridgeRunWrites 64 32 (c6SampleTxns.map (fun t => { t with id := t.id + 10 }))).map
        (fun rs => rs.map Prod.fst)
        = (bridgeRunWrites 64 32 c6SampleTxns).map (fun rs => rs.map Prod.fst) := by
  have h := c6_ids_opaque_passthrough 64 32 c6SampleTxns (fun i => i + 10) (by decide)
  exact ⟨h.1, h.2.2⟩

/-! ## Shared-interconnect round-robin arbiter (modelled from the spec) -/

/-- Modelled from the spec (§4.3): one grant decision of the round-robin
arbiter of the shared interconnect (`wishbone.InterconnectShared`'s arbiter
is library code outside the embedded sources).  With `n` masters, request
vector `req` and previously granted master `last`, the grant goes to the
first requesting master in the cyclic ascending-id order starting after
`last` (round-robin, tie-broken by ascending port id); `none` when nobody
requests. -/
def rrGrant (n : Nat) (req : Nat → Bool) (last : Nat) : Option Nat :=
  ((List.range n).find? (fun o => req ((last + 1 + o) % n))).map
    (fun o => (last + 1 + o) % n)

/-- Modelled from the spec: the sequence of grants under a constant request
vector; `rrRun n req last t` is the `(t+1)`-th grant issued after state
`last`. -/
def rrRun (n : Nat) (req : Nat → Bool) : Nat → Nat → Option Nat
  | last, 0 => rrGrant n req last
  | last, t + 1 =>
    match rrGrant n req last with
    | some g => rrRun n req g t
    | none => none

theorem find?_range_eq_some {p : Nat → Bool} {n o : Nat}
    (h : (List.range n).find? p = some o) :
    p o = true ∧ o < n ∧ ∀ j, j < o → p j = false := by
  induction n with
  | zero => simp [List.range_zero] at h
  | succ n ih =>
    rw [List.range_succ, List.find?_append] at h
    cases hfind : (List.range n).find? p with
    | some o' =>
      rw [hfind] at h
      simp only [Option.or_some] at h
      have := ih (by rw [hfind]; exact h)
      exact ⟨this.1, Nat.lt_succ_of_lt this.2.1, this.2.2⟩
    | none =>
      rw [hfind] at h
      simp only [Option.none_or] at h
      have hall : ∀ j, j < n → p j = false := by
        intro j hj
        have := List.find?_eq_none.mp hfind j (List.mem_range.mpr hj)
        simpa using this
      by_cases hn : p n
      · simp [List.find?, hn] at h
        subst h
        exact ⟨hn, Nat.lt_succ_self n, hall⟩
      · simp [List.find?, hn] at h

theorem find?_range_le {p : Nat → Bool} {n d : Nat} (hd : d < n) (hp : p d = true) :
    ∃ o, (List.range n).find? p = some o ∧ o ≤ d := by
  cases hfind : (List.range n).find? p with
  | none =>
    have := List.find?_eq_none.mp hfind d (List.mem_range.mpr hd)
    simp [hp] at this
  | some o =>
    refine ⟨o, rfl, ?_⟩
    by_contra hlt
    have := (find?_range_eq_some hfind).2.2 d (by omega)
    simp [hp] at this

theorem rrRun_zero (n : Nat) (req : Nat → Bool) (last : Nat) :
    rrRun n req last 0 = rrGrant n req last := rfl

theorem rrRun_succ_of_grant (n : Nat) (req : Nat → Bool) (last g t : Nat)
    (h : rrGrant n req last = some g) :
    rrRun n req last (t + 1) = rrRun n req g t := by
  simp [rrRun, h]

theorem rrRun_reaches (n : Nat) (req : Nat → Bool) :
    ∀ d last, d < n → req ((last + 1 + d) % n) = true →
      ∃ t, t ≤ (List.range d).countP (fun o => req ((last + 1 + o) % n)) ∧
        rrRun n req last t = some ((last + 1 + d) % n) := by
  intro d
  induction d using Nat.strong_induction_on with
  | _ d ih =>
    intro last hd hreq
    obtain ⟨o₀, hfind, ho₀d⟩ :=
      find?_range_le (p := fun o => req ((last + 1 + o) % n)) hd hreq
    obtain ⟨hp₀, ho₀n, hmin⟩ := find?_range_eq_some hfind
    have hgrant : rrGrant n req last = some ((last + 1 + o₀) % n) := by
      simp [rrGrant, hfind]
    by_cases hcase : o₀ = d
    · subst hcase
      exact ⟨0, Nat.zero_le _, by simpa [rrRun_zero] using hgrant⟩
    · have ho₀lt : o₀ < d := by omega
      have hcong : ∀ x, ((last + 1 + o₀) % n + 1 + x) % n
          = (last + 1 + (o₀ + 1 + x)) % n := by
        intro x
        calc ((last + 1 + o₀) % n + 1 + x) % n
            = ((last + 1 + o₀) % n + (1 + x)) % n := by ring_nf
          _ = (last + 1 + o₀ + (1 + x)) % n := Nat.mod_add_mod _ _ _
          _ = (last + 1 + (o₀ + 1 + x)) % n := by ring_nf
      have hd'x : o₀ + 1 + (d - (o₀ + 1)) = d := by omega
      have hreq' : req (((last + 1 + o₀) % n + 1 + (d - (o₀ + 1))) % n) = true := by
        rw [hcong, hd'x]
        exact hreq
      obtain ⟨t', ht'le, ht'run⟩ := ih (d - (o₀ + 1)) (by omega) ((last + 1 + o₀) % n)
        (by omega) hreq'
      refine ⟨t' + 1, ?_, ?_⟩
      · have hone : (List.range (o₀ + 1)).countP (fun o => req ((last + 1 + o) % n)) = 1 := by
          rw [List.range_succ, List.countP_append]
          have h0 : (List.range o₀).countP (fun o => req ((last + 1 + o) % n)) = 0 := by
            apply List.countP_eq_zero.mpr
            intro j hj
            simp [hmin j (List.mem_range.mp hj)]
          simp [h0, List.countP_cons, hp₀]
        have hsplit : (List.range d).countP (fun o => req ((last + 1 + o) % n))
            = 1 + (List.range (d - (o₀ + 1))).countP
                (fun o => req (((last + 1 + o₀) % n + 1 + o) % n)) := by
          conv_lhs => rw [← hd'x]
          rw [List.range_add, List.countP_append, List.countP_map, hone]
          congr 1
          apply List.countP_congr
          intro x _
          simp only [Function.comp]
          rw [hcong x]
        omega
      · rw [rrRun_succ_of_grant n req last ((last + 1 + o₀) % n) t' hgrant, ht'run,
          hcong, hd'x]

theorem mod_shift_inj (n a : Nat) :
    ∀ x y, x < n → y < n → (a + x) % n = (a + y) % n → x = y := by
  intro x y hx hy hxy
  have hmodeq : x ≡ y [MOD n] := Nat.ModEq.add_left_cancel' a hxy
  have hx' : x % n = y % n := hmodeq
  rw [Nat.mod_eq_of_lt hx, Nat.mod_eq_of_lt hy] at hx'
  exact hx'

theorem countP_offsets_le_other_requesters (n : Nat) (req : Nat → Bool)
    (last d : Nat) (hd : d < n) :
    (List.range d).countP (fun o => req ((last + 1 + o) % n))
      ≤ ((List.range n).filter
          (fun i => req i && !(i == (last + 1 + d) % n))).length := by
  have hnpos : 0 < n := by omega
  have hmap : (List.range d).countP (fun o => req ((last + 1 + o) % n))
      = ((List.range d).map (fun o => (last + 1 + o) % n)).countP req := by
    rw [List.countP_map]
    rfl
  have hnodup : ((List.range d).map (fun o => (last + 1 + o) % n)).Nodup := by
    refine List.Nodup.map_on ?_ (List.nodup_range d)
    intro x hx y hy hxy
    exact mod_shift_inj n (last + 1) x y
      (by have := List.mem_range.mp hx; omega)
      (by have := List.mem_range.mp hy; omega) hxy
  have hsub : ((List.range d).map (fun o => (last + 1 + o) % n)) ⊆ List.range n := by
    intro a ha
    obtain ⟨o, _, rfl⟩ := List.mem_map.mp ha
    exact List.mem_range.mpr (Nat.mod_lt _ hnpos)
  have hnotm : ∀ a ∈ (List.range d).map (fun o => (last + 1 + o) % n),
      (a == (last + 1 + d) % n) = false := by
    intro a ha
    obtain ⟨o, ho, rfl⟩ := List.mem_map.mp ha
    have ho' : o < d := List.mem_range.mp ho
    have hne : ¬ (last + 1 + o) % n = (last + 1 + d) % n := by
      intro heq
      have := mod_shift_inj n (last + 1) o d (by omega) hd heq
      omega
    simpa using hne
  have hcongr : ((List.range d).map (fun o => (last + 1 + o) % n)).countP req
      = ((List.range d).map (fun o => (last + 1 + o) % n)).countP
          (fun i => req i && !(i == (last + 1 + d) % n)) := by
    apply List.countP_congr
    intro a ha
    rw [hnotm a ha]
    simp
  calc (List.range d).countP (fun o => req ((last + 1 + o) % n))
      = ((List.range d).map (fun o => (last + 1 + o) % n)).countP
          (fun i => req i && !(i == (last + 1 + d) % n)) := by rw [hmap, hcongr]
    _ ≤ (List.range n).countP (fun i => req i && !(i == (last + 1 + d) % n)) :=
        List.Subperm.countP_le _ (List.subperm_of_subset hnodup hsub)
    _ = ((List.range n).filter
          (fun i => req i && !(i == (last + 1 + d) % n))).length :=
        List.countP_eq_length_filter _ _

theorem rrRun_two_alternating (t : Nat) : ∀ last,
    rrRun 2 (fun _ => true) last t = some ((last + 1 + t) % 2) := by
  induction t with
  | zero =>
    intro last
    rw [rrRun_zero]
    simp [rrGrant, List.find?]
  | succ t ih =>
    intro last
    have hg : rrGrant 2 (fun _ => true) last = some ((last + 1) % 2) := by
      simp [rrGrant, List.find?]
    rw [rrRun_succ_of_grant 2 (fun _ => true) last ((last + 1) % 2) t hg, ih]
    congr 1
    omega

theorem rr_exists_offset (n last m : Nat) (hm : m < n) :
    ∃ d, d < n ∧ (last + 1 + d) % n = m := by
  have hnpos : 0 < n := by omega
  have hr : (last + 1) % n < n := Nat.mod_lt _ hnpos
  by_cases hc : (last + 1) % n ≤ m
  · refine ⟨m - (last + 1) % n, by omega, ?_⟩
    rw [← Nat.mod_add_mod]
    have hsum : (last + 1) % n + (m - (last + 1) % n) = m := by omega
    rw [hsum, Nat.mod_eq_of_lt hm]
  · refine ⟨m + n - (last + 1) % n, by omega, ?_⟩
    rw [← Nat.mod_add_mod]
    have hsum : (last + 1) % n + (m + n - (last + 1) % n) = m + n := by omega
    rw [hsum, Nat.add_mod_right, Nat.mod_eq_of_lt hm]

/-- C5: under round-robin arbitration, a master `m` that continuously asserts
its request is granted within at most (number of other currently-requesting
masters) grant cycles, from any arbiter state; and with two
continuously-requesting masters the grant strictly alternates every cycle
(each master is granted within at most 1 cycle of the other, with no
starvation, at every cycle of any run). -/
theorem c5_round_robin_fairness (n : Nat) (req : Nat → Bool) (last m : Nat)
    (hm : m < n) (hreq : req m = true) :
    (∃ t, t ≤ ((List.range n).filter (fun i => req i && !(i == m))).length ∧
        rrRun n req last t = some m)
  ∧ (∀ s t : Nat, rrRun 2 (fun _ => true) s t = some ((s + 1 + t) % 2)) := by
  constructor
  · obtain ⟨d, hd, hdm⟩ := rr_exists_offset n last m hm
    have hreq' : req ((last + 1 + d) % n) = true := by rw [hdm]; exact hreq
    obtain ⟨t, htle, htrun⟩ := rrRun_reaches n req d last hd hreq'
    refine ⟨t, ?_, by rw [htrun, hdm]⟩
    calc t ≤ (List.range d).countP (fun o => req ((last + 1 + o) % n)) := htle
      _ ≤ ((List.range n).filter
            (fun i => req i && !(i == (last + 1 + d) % n))).length :=
          countP_offsets_le_other_requesters n req last d hd
      _ = ((List.range n).filter (fun i => req i && !(i == m))).length := by rw [hdm]
  · intro s t
    exact rrRun_two_alternating t s

/-- Concrete instance of C5: three masters of which 0 and 2 request; master 2
is granted within 1 grant cycle from state 0, and the two-master alternation
holds. -/
theorem c5_round_robin_fairness_witness :
    (∃ t, t ≤ ((List.range 3).filter
        (fun i => (!(i == 1) : Bool) && !(i == 2))).length ∧
      rrRun 3 (fun i => !(i == 1)) 0 t = some 2)
  ∧ (∀ s t : Nat, rrRun 2 (fun _ => true) s t = some ((s + 1 + t) % 2)) :=
  c5_round_robin_fairness 3 (fun i => !(i == 1)) 0 2 (by decide) (by decide)


end LitexCycloneV
